import Mathlib

/-!
Shallow embedding of the Dominion simulation (src/main.py and src/yuchen.py).

Both files define the same three classes (DominionCard, DominionPlayer,
DominionGame) with minor variations; the shared data model is declared once
and the per-file operations live in namespaces Main and Yuchen.

Python dicts (the supply, the score table) are modelled as ordered
association lists with insert-or-overwrite semantics, matching dict
insertion order.  Ambient randomness (random.shuffle) is modelled by an
explicit shuffle parameter; theorems hypothesise that it permutes, or at
least preserves the length of, its input.  The per-turn counters are Int
because the Python code can drive them below zero (main.py decrements
buys without a guard).
-/

/-- Card record shared by both files.  main.py constructs cards without the
draw field (yuchen.py adds it, defaulting to 0); main.py code never reads
it, so one structure with draw serves both embeddings. -/
structure DominionCard where
  name : String
  card_type : String
  cost : Nat
  actions : Nat
  buys : Nat
  coins : Nat
  vp : Nat
  draw : Nat
deriving DecidableEq

/-- Player record: identical fields in both files. -/
structure DominionPlayer where
  name : String
  deck : List DominionCard
  hand : List DominionCard
  discard_pile : List DominionCard
  actions : Int
  buys : Int
  coins : Int
deriving DecidableEq

/-- A Python dict from card name to count, in insertion order. -/
abbrev Supply := List (String × Nat)

/-- Dict lookup: value at the first (and, for a genuine dict, only)
occurrence of the key. -/
def dlookup : Supply → String → Option Nat
  | [], _ => none
  | (k, v) :: rest, key => if k = key then some v else dlookup rest key

/-- Dict assignment d[k] = v: overwrite in place when the key is present,
append at the end otherwise. -/
def dinsert : Supply → String → Nat → Supply
  | [], k, v => [(k, v)]
  | (k1, v1) :: rest, k, v =>
    if k1 = k then (k1, v) :: rest else (k1, v1) :: dinsert rest k v

/-- Python d.update(entries): assign every entry in order. -/
def dupdate (d : Supply) (entries : Supply) : Supply :=
  entries.foldl (fun acc kv => dinsert acc kv.1 kv.2) d

/-- Number of card instances a player holds across all three zones. -/
def total_cards (p : DominionPlayer) : Nat :=
  p.deck.length + p.hand.length + p.discard_pile.length

/-- The Copper card as constructed by initialize_deck in both files. -/
def copperCard : DominionCard := ⟨"Copper", "Treasure", 0, 0, 0, 1, 0, 0⟩

/-- The Estate card as constructed by initialize_deck in both files. -/
def estateCard : DominionCard := ⟨"Estate", "Victory", 2, 0, 0, 0, 1, 0⟩

namespace Main

/-- main.py initialize_deck: 7 Copper and 3 Estate, shuffled. -/
def initialize_deck (shuffle : List DominionCard → List DominionCard) :
    List DominionCard :=
  shuffle (List.replicate 7 copperCard ++ List.replicate 3 estateCard)

/-- main.py shuffle_discard_into_deck: shuffle the discard pile and append
it to the deck. -/
def shuffle_discard_into_deck
    (shuffle : List DominionCard → List DominionCard)
    (p : DominionPlayer) : DominionPlayer :=
  { p with deck := p.deck ++ shuffle p.discard_pile, discard_pile := [] }

/-- main.py draw_hand: if the deck holds fewer than 5 cards, shuffle the
discard pile into it; then the hand BECOMES the first 5 deck cards (the
previous hand is overwritten, not preserved). -/
def draw_hand (shuffle : List DominionCard → List DominionCard)
    (p : DominionPlayer) : DominionPlayer :=
  let p1 := if p.deck.length < 5 then shuffle_discard_into_deck shuffle p else p
  { p1 with hand := p1.deck.take 5, deck := p1.deck.drop 5 }

/-- main.py play_action_card: unconditionally decrement actions, add the
bonus coins and buys, then call draw_hand.  The played card is never
removed from the hand nor added to the discard pile. -/
def play_action_card (shuffle : List DominionCard → List DominionCard)
    (p : DominionPlayer) (card : DominionCard) : DominionPlayer :=
  draw_hand shuffle
    { p with actions := p.actions - 1, coins := p.coins + card.coins,
             buys := p.buys + card.buys }

/-- main.py buy_card: succeed when cost is within coins and the supply has
a positive count for the name; note there is NO check that buys is
positive. -/
def buy_card (p : DominionPlayer) (card : DominionCard) (supply : Supply) :
    Bool × DominionPlayer × Supply :=
  match dlookup supply card.name with
  | some cnt =>
    if (card.cost : Int) ≤ p.coins ∧ 0 < cnt then
      (true,
       { p with coins := p.coins - card.cost, buys := p.buys - 1,
                discard_pile := p.discard_pile ++ [card] },
       dinsert supply card.name (cnt - 1))
    else (false, p, supply)
  | none => (false, p, supply)

/-- main.py end_turn: move the hand onto the discard pile and reset the
counters; the deck is untouched and no card is drawn. -/
def end_turn (p : DominionPlayer) : DominionPlayer :=
  { p with discard_pile := p.discard_pile ++ p.hand, hand := [],
           actions := 1, buys := 1, coins := 0 }

/-- main.py base_action_cards: the 26-entry catalog the kingdom selection
shuffles and samples from.  Field order: name, card_type, cost, actions,
buys, coins, vp, draw (main.py cards carry no draw value, embedded as 0). -/
def base_action_cards : List DominionCard :=
  [⟨"Cellar", "Action", 2, 1, 0, 0, 0, 0⟩,
   ⟨"Chapel", "Action", 2, 0, 0, 0, 0, 0⟩,
   ⟨"Moat", "Action-Reaction", 2, 0, 0, 2, 0, 0⟩,
   ⟨"Harbinger", "Action", 3, 1, 0, 1, 0, 0⟩,
   ⟨"Merchant", "Action", 3, 1, 0, 1, 0, 0⟩,
   ⟨"Vassal", "Action", 3, 0, 0, 2, 0, 0⟩,
   ⟨"Village", "Action", 3, 2, 0, 1, 0, 0⟩,
   ⟨"Workshop", "Action", 3, 0, 0, 0, 0, 0⟩,
   ⟨"Bureaucrat", "Action-Attack", 4, 0, 0, 0, 0, 0⟩,
   ⟨"Gardens", "Victory", 4, 0, 0, 0, 0, 0⟩,
   ⟨"Militia", "Action-Attack", 4, 0, 0, 2, 0, 0⟩,
   ⟨"Moneylender", "Action", 4, 0, 0, 0, 0, 0⟩,
   ⟨"Poacher", "Action", 4, 1, 0, 1, 0, 0⟩,
   ⟨"Remodel", "Action", 4, 0, 0, 0, 0, 0⟩,
   ⟨"Smithy", "Action", 4, 0, 0, 3, 0, 0⟩,
   ⟨"Throne Room", "Action", 4, 0, 0, 0, 0, 0⟩,
   ⟨"Bandit", "Action-Attack", 5, 0, 0, 0, 0, 0⟩,
   ⟨"Council Room", "Action", 5, 0, 1, 4, 0, 0⟩,
   ⟨"Festival", "Action", 5, 2, 1, 2, 0, 0⟩,
   ⟨"Laboratory", "Action", 5, 1, 0, 2, 0, 0⟩,
   ⟨"Library", "Action", 5, 0, 0, 0, 0, 0⟩,
   ⟨"Market", "Action", 5, 1, 1, 1, 0, 0⟩,
   ⟨"Mine", "Action", 5, 0, 0, 0, 0, 0⟩,
   ⟨"Sentry", "Action", 5, 1, 0, 1, 0, 0⟩,
   ⟨"Witch", "Action-Attack", 5, 0, 0, 2, 0, 0⟩,
   ⟨"Artisan", "Action", 6, 0, 0, 0, 0, 0⟩]

/-- The for-loop at the end of initialize_supply: give each selected
kingdom card 10 copies in the supply. -/
def add_kingdom (supply : Supply) (selected : List DominionCard) : Supply :=
  selected.foldl (fun acc c => dinsert acc c.name 10) supply

/-- main.py initialize_supply.  The shuffled argument stands for the result
of random.shuffle on base_action_cards (theorems hypothesise it is a
permutation of that list); the first num_kingdom_cards entries are the
selected kingdom.  A player count outside 2, 3, 4 raises ValueError,
modelled as the error branch. -/
def initialize_supply (num_players : Nat)
    (shuffled : List DominionCard) (num_kingdom_cards : Nat) :
    Except Unit Supply :=
  let base : Supply :=
    [("Copper", 60 - num_players * 7), ("Silver", 40), ("Gold", 30)]
  if num_players = 2 then
    Except.ok (add_kingdom
      (base ++ [("Estate", 8), ("Duchy", 8), ("Province", 8), ("Curse", 10)])
      (shuffled.take num_kingdom_cards))
  else if num_players = 3 then
    Except.ok (add_kingdom
      (base ++ [("Estate", 12), ("Duchy", 12), ("Province", 12), ("Curse", 20)])
      (shuffled.take num_kingdom_cards))
  else if num_players = 4 then
    Except.ok (add_kingdom
      (base ++ [("Estate", 12), ("Duchy", 12), ("Province", 12), ("Curse", 30)])
      (shuffled.take num_kingdom_cards))
  else Except.error ()

/-- main.py get_card_by_name: scan the supply keys; on the first key equal
to the requested name the code reads self.supply[card].card_type, but the
dict value is an int, so an AttributeError is raised (the error branch);
when no key matches, None is returned. -/
def get_card_by_name : Supply → String → Except Unit (Option DominionCard)
  | [], _ => Except.ok none
  | (card, _) :: rest, name =>
    if card = name then Except.error () else get_card_by_name rest name

/-- The for-loop of check_game_over: walk the supply counting empty piles
into acc; on an empty Province pile set game_over and break.  Returns the
game_over flag and the value of empty_piles when the loop left off. -/
def count_empty_loop : Bool → Nat → Supply → Bool × Nat
  | go, acc, [] => (go, acc)
  | go, acc, (card, count) :: rest =>
    if count = 0 then
      if card = "Province" then (true, acc + 1)
      else count_empty_loop go (acc + 1) rest
    else count_empty_loop go acc rest

/-- main.py check_game_over, restricted to the game_over flag it computes
(the scoring it then performs is modelled by player_score and winners
below): run the counting loop, then set the flag if three or more piles
were found empty. -/
def check_game_over (game_over : Bool) (supply : Supply) : Bool :=
  let r := count_empty_loop game_over 0 supply
  if 3 ≤ r.2 then true else r.1

/-- All card instances a player owns, in the order main.py concatenates
them for scoring: deck, then hand, then discard pile. -/
def owned (p : DominionPlayer) : List DominionCard :=
  p.deck ++ p.hand ++ p.discard_pile

/-- The per-card contribution inside the scoring loop of check_game_over:
vp when the card_type is Victory or Curse, plus, for a card named Gardens,
the total owned count divided by 10 (the divisor is recomputed from the
unchanged zones each iteration, hence constant). -/
def card_points (total : Nat) (card : DominionCard) : Nat :=
  (if card.card_type = "Victory" ∨ card.card_type = "Curse" then card.vp else 0)
  + (if card.name = "Gardens" then total / 10 else 0)

/-- main.py scoring loop for one player. -/
def player_score (p : DominionPlayer) : Nat :=
  ((owned p).map (card_points (owned p).length)).sum

/-- The scores dict of check_game_over: scores[player.name] = score, in
player order (a duplicate name overwrites, exactly as the dict does). -/
def scores_dict (players : List DominionPlayer) : Supply :=
  players.foldl (fun d p => dinsert d p.name (player_score p)) []

/-- Python max over scores.values().  Python raises on an empty dict; the
embedding returns 0 there, and the theorems only consider a nonempty
player list, where the fold equals the maximum value. -/
def max_score (players : List DominionPlayer) : Nat :=
  ((scores_dict players).map Prod.snd).foldl Nat.max 0

/-- The winners comprehension: every name whose recorded score equals the
maximum (all of them are reported together when two or more tie). -/
def winners (players : List DominionPlayer) : List String :=
  ((scores_dict players).filter (fun x => x.2 == max_score players)).map
    Prod.fst

end Main

namespace Yuchen

/-- yuchen.py shuffle_discard_into_deck: the discard pile, shuffled,
REPLACES the deck (it is only called when the deck is empty). -/
def shuffle_discard_into_deck
    (shuffle : List DominionCard → List DominionCard)
    (p : DominionPlayer) : DominionPlayer :=
  { p with deck := shuffle p.discard_pile, discard_pile := [] }

/-- yuchen.py draw_card: reshuffle the discard pile into the empty deck if
possible, then move the top (front) deck card to the hand; silently a
no-op when no card is available. -/
def draw_card (shuffle : List DominionCard → List DominionCard)
    (p : DominionPlayer) : DominionPlayer :=
  let p1 :=
    if p.deck.length = 0 ∧ 0 < p.discard_pile.length then
      shuffle_discard_into_deck shuffle p
    else p
  match p1.deck with
  | [] => p1
  | top :: rest => { p1 with hand := p1.hand ++ [top], deck := rest }

/-- yuchen.py draw_hand is the unguarded loop
while len(self.hand) < 5: self.draw_card().
The loop has no exit when no card can be drawn, so the embedding is
fuel-indexed: none means the fuel ran out with the loop still running. -/
def draw_hand_fuel (shuffle : List DominionCard → List DominionCard) :
    Nat → DominionPlayer → Option DominionPlayer
  | 0, p => if p.hand.length < 5 then none else some p
  | fuel + 1, p =>
    if p.hand.length < 5 then draw_hand_fuel shuffle fuel (draw_card shuffle p)
    else some p

/-- yuchen.py play_action_card: fail (returning False, nothing mutated)
when no action remains or the card is not in hand; note the card category
is NOT examined.  Otherwise decrement actions, add the bonus coins and
buys, draw card.draw cards one at a time, and move the card from hand to
discard.  Python removes by object identity; since instances of a kind
are interchangeable, removing the first structurally equal copy
(List.erase) is the faithful value-level rendering. -/
def play_action_card (shuffle : List DominionCard → List DominionCard)
    (p : DominionPlayer) (card : DominionCard) : Bool × DominionPlayer :=
  if p.actions ≤ 0 then (false, p)
  else if card ∈ p.hand then
    let p1 := { p with actions := p.actions - 1, coins := p.coins + card.coins,
                       buys := p.buys + card.buys }
    let p2 := (draw_card shuffle)^[card.draw] p1
    (true, { p2 with hand := p2.hand.erase card,
                     discard_pile := p2.discard_pile ++ [card] })
  else (false, p)

/-- yuchen.py buy_card: check buys, then coins, then the supply count; the
count check indexes supply[card.name] directly, raising KeyError (the
error branch) when the name is not a key. -/
def buy_card (p : DominionPlayer) (card : DominionCard) (supply : Supply) :
    Except Unit (Bool × DominionPlayer × Supply) :=
  if p.buys ≤ 0 then Except.ok (false, p, supply)
  else if p.coins < (card.cost : Int) then Except.ok (false, p, supply)
  else
    match dlookup supply card.name with
    | none => Except.error ()
    | some cnt =>
      if cnt ≤ 0 then Except.ok (false, p, supply)
      else Except.ok (true,
        { p with coins := p.coins - card.cost, buys := p.buys - 1,
                 discard_pile := p.discard_pile ++ [card] },
        dinsert supply card.name (cnt - 1))

/-- yuchen.py end_turn: move the hand to the discard pile, reset the
counters, and then IMMEDIATELY draw the next hand (draw_hand is called
from inside end_turn), via the fuelled loop. -/
def end_turn (shuffle : List DominionCard → List DominionCard) (fuel : Nat)
    (p : DominionPlayer) : Option DominionPlayer :=
  draw_hand_fuel shuffle fuel
    { p with discard_pile := p.discard_pile ++ p.hand, hand := [],
             actions := 1, buys := 1, coins := 0 }

/-- yuchen.py setup_supply: a dict of 10 copies per kingdom card, then
update with the fixed base piles — no dependence on the player count, no
Curse pile, no validation. -/
def setup_supply (kingdom_cards : List DominionCard) : Supply :=
  dupdate (kingdom_cards.foldl (fun acc c => dinsert acc c.name 10) [])
    [("Copper", 60), ("Silver", 40), ("Gold", 30), ("Estate", 24),
     ("Duchy", 12), ("Province", 12)]

end Yuchen

/-- Lookup inside the result of a supply initialisation that may have
raised: none when the call raised, the dict lookup otherwise. -/
def exlookup (e : Except Unit Supply) (name : String) : Option Nat :=
  match e with
  | Except.ok s => dlookup s name
  | Except.error _ => none

/-- The Smithy entry of the catalog, used as a sample action card. -/
def smithyCard : DominionCard := ⟨"Smithy", "Action", 4, 0, 0, 3, 0, 0⟩

/-- The Silver card as named in the base supply. -/
def silverCard : DominionCard := ⟨"Silver", "Treasure", 3, 0, 0, 2, 0, 0⟩

/-- The Gardens entry of the catalog. -/
def gardensCard : DominionCard := ⟨"Gardens", "Victory", 4, 0, 0, 0, 0, 0⟩

/-! ### Dictionary lemmas -/

theorem dlookup_dinsert_self (d : Supply) (k : String) (v : Nat) :
    dlookup (dinsert d k v) k = some v := by
  induction d with
  | nil => simp [dinsert, dlookup]
  | cons hd tl ih =>
    obtain ⟨k1, v1⟩ := hd
    by_cases h : k1 = k
    · simp [dinsert, dlookup, h]
    · simp [dinsert, dlookup, h, ih]

theorem dlookup_dinsert_ne (d : Supply) {k k2 : String} (v : Nat) (h : k ≠ k2) :
    dlookup (dinsert d k v) k2 = dlookup d k2 := by
  induction d with
  | nil => simp [dinsert, dlookup, h]
  | cons hd tl ih =>
    obtain ⟨k1, v1⟩ := hd
    by_cases h1 : k1 = k
    · subst h1
      simp [dinsert, dlookup, h]
    · by_cases h2 : k1 = k2 <;> simp [dinsert, dlookup, h1, h2, ih, Ne.symm h]

theorem dinsert_of_dlookup_none {d : Supply} {k : String}
    (h : dlookup d k = none) (v : Nat) : dinsert d k v = d ++ [(k, v)] := by
  induction d with
  | nil => rfl
  | cons hd tl ih =>
    obtain ⟨k1, v1⟩ := hd
    by_cases h1 : k1 = k
    · simp [dlookup, h1] at h
    · simp only [dlookup, h1, if_false, ite_false] at h
      simp [dinsert, h1, ih h]

theorem dlookup_append (d1 d2 : Supply) (k : String) :
    dlookup (d1 ++ d2) k = (dlookup d1 k).or (dlookup d2 k) := by
  induction d1 with
  | nil => simp [dlookup]
  | cons hd tl ih =>
    obtain ⟨k1, v1⟩ := hd
    by_cases h1 : k1 = k <;> simp [dlookup, h1, ih]

theorem mem_of_dlookup {d : Supply} {k : String} {v : Nat}
    (h : dlookup d k = some v) : (k, v) ∈ d := by
  induction d with
  | nil => simp [dlookup] at h
  | cons hd tl ih =>
    obtain ⟨k1, v1⟩ := hd
    by_cases h1 : k1 = k
    · subst h1
      have hv : v1 = v := by simpa [dlookup] using h
      subst hv
      exact List.mem_cons_self _ _
    · simp only [dlookup, h1, if_false, ite_false] at h
      exact List.mem_cons_of_mem _ (ih h)

theorem dlookup_of_mem {d : Supply} {k : String} {v : Nat}
    (hnd : (d.map Prod.fst).Nodup) (h : (k, v) ∈ d) : dlookup d k = some v := by
  induction d with
  | nil => cases h
  | cons hd tl ih =>
    obtain ⟨k1, v1⟩ := hd
    rw [List.map_cons, List.nodup_cons] at hnd
    rcases List.mem_cons.mp h with h0 | h0
    · cases h0
      simp [dlookup]
    · have hk : k1 ≠ k := by
        intro he
        exact hnd.1 (he ▸ List.mem_map.mpr ⟨(k, v), h0, rfl⟩)
      simp [dlookup, hk, ih hnd.2 h0]

/-! ### Kingdom-supply lemmas -/

theorem add_kingdom_lookup_ne (sel : List DominionCard) (supply : Supply)
    {n : String} (h : ∀ c ∈ sel, c.name ≠ n) :
    dlookup (Main.add_kingdom supply sel) n = dlookup supply n := by
  induction sel generalizing supply with
  | nil => rfl
  | cons c tl ih =>
    have hstep : Main.add_kingdom supply (c :: tl)
        = Main.add_kingdom (dinsert supply c.name 10) tl := rfl
    rw [hstep, ih _ fun x hx => h x (List.mem_cons_of_mem _ hx),
      dlookup_dinsert_ne _ _ (h c (List.mem_cons_self _ _))]

theorem add_kingdom_lookup_mem (sel : List DominionCard) (supply : Supply)
    (hnd : (sel.map DominionCard.name).Nodup) {c : DominionCard}
    (hc : c ∈ sel) : dlookup (Main.add_kingdom supply sel) c.name = some 10 := by
  induction sel generalizing supply with
  | nil => cases hc
  | cons x tl ih =>
    rw [List.map_cons, List.nodup_cons] at hnd
    have hstep : Main.add_kingdom supply (x :: tl)
        = Main.add_kingdom (dinsert supply x.name 10) tl := rfl
    rcases List.mem_cons.mp hc with h0 | h0
    · subst h0
      have hne : ∀ y ∈ tl, y.name ≠ c.name := by
        intro y hy he
        exact hnd.1 (he ▸ List.mem_map.mpr ⟨y, hy, rfl⟩)
      rw [hstep, add_kingdom_lookup_ne tl _ hne, dlookup_dinsert_self]
    · rw [hstep]
      exact ih _ hnd.2 h0

/-! ### Game-over loop lemmas -/

theorem count_empty_loop_no_province {l : Supply} (go : Bool) (acc : Nat)
    (h : ("Province", 0) ∉ l) :
    Main.count_empty_loop go acc l
      = (go, acc + (l.filter fun x => x.2 == 0).length) := by
  induction l generalizing acc with
  | nil => simp [Main.count_empty_loop]
  | cons hd tl ih =>
    obtain ⟨card, count⟩ := hd
    have htl : ("Province", 0) ∉ tl := fun hm => h (List.mem_cons_of_mem _ hm)
    by_cases h0 : count = 0
    · subst h0
      have hcard : card ≠ "Province" := by
        intro he
        exact h (he ▸ List.mem_cons_self _ _)
      rw [show Main.count_empty_loop go acc ((card, 0) :: tl)
            = Main.count_empty_loop go (acc + 1) tl by
          simp [Main.count_empty_loop, hcard]]
      rw [ih _ htl]
      simp [List.filter]
      omega
    · rw [show Main.count_empty_loop go acc ((card, count) :: tl)
            = Main.count_empty_loop go acc tl by
          simp [Main.count_empty_loop, h0]]
      rw [ih _ htl]
      simp [List.filter_cons, h0]

theorem count_empty_loop_province {l : Supply} (go : Bool) (acc : Nat)
    (h : ("Province", 0) ∈ l) :
    (Main.count_empty_loop go acc l).1 = true := by
  induction l generalizing acc with
  | nil => cases h
  | cons hd tl ih =>
    obtain ⟨card, count⟩ := hd
    by_cases h0 : count = 0
    · subst h0
      by_cases hcard : card = "Province"
      · subst hcard
        simp [Main.count_empty_loop]
      · have htl : ("Province", 0) ∈ tl := by
          rcases List.mem_cons.mp h with h1 | h1
          · cases h1; exact absurd rfl hcard
          · exact h1
        rw [show Main.count_empty_loop go acc ((card, 0) :: tl)
              = Main.count_empty_loop go (acc + 1) tl by
            simp [Main.count_empty_loop, hcard]]
        exact ih _ htl
    · have htl : ("Province", 0) ∈ tl := by
        rcases List.mem_cons.mp h with h1 | h1
        · cases h1; exact absurd rfl h0
        · exact h1
      rw [show Main.count_empty_loop go acc ((card, count) :: tl)
            = Main.count_empty_loop go acc tl by
          simp [Main.count_empty_loop, h0]]
      exact ih _ htl

/-! ### Draw-mechanics lemmas (yuchen.py) -/

theorem draw_card_zone_sizes (shuffle : List DominionCard → List DominionCard)
    (hl : ∀ l, (shuffle l).length = l.length) (p : DominionPlayer) :
    (0 < p.deck.length + p.discard_pile.length →
      (Yuchen.draw_card shuffle p).hand.length = p.hand.length + 1) ∧
    total_cards (Yuchen.draw_card shuffle p) = total_cards p ∧
    (Yuchen.draw_card shuffle p).actions = p.actions ∧
    (Yuchen.draw_card shuffle p).buys = p.buys ∧
    (Yuchen.draw_card shuffle p).coins = p.coins ∧
    ∀ x ∈ p.hand, x ∈ (Yuchen.draw_card shuffle p).hand := by
  obtain ⟨nm, deck, hand, disc, a, b, c⟩ := p
  cases deck with
  | nil =>
    cases disc with
    | nil => simp [Yuchen.draw_card, total_cards]
    | cons d ds =>
      have hlen := hl (d :: ds)
      cases hsd : shuffle (d :: ds) with
      | nil => rw [hsd] at hlen; simp at hlen
      | cons top rest =>
        have hred : Yuchen.draw_card shuffle ⟨nm, [], hand, d :: ds, a, b, c⟩
            = ⟨nm, rest, hand ++ [top], [], a, b, c⟩ := by
          simp [Yuchen.draw_card, Yuchen.shuffle_discard_into_deck, hsd]
        rw [hsd] at hlen
        simp only [List.length_cons] at hlen
        rw [hred]
        refine ⟨fun _ => by simp, by simp [total_cards]; omega, rfl, rfl, rfl,
          fun x hx => List.mem_append_left _ hx⟩
  | cons top rest =>
    have hred : Yuchen.draw_card shuffle ⟨nm, top :: rest, hand, disc, a, b, c⟩
        = ⟨nm, rest, hand ++ [top], disc, a, b, c⟩ := by
      simp [Yuchen.draw_card]
    rw [hred]
    refine ⟨fun _ => by simp, by simp [total_cards]; omega, rfl, rfl, rfl,
      fun x hx => List.mem_append_left _ hx⟩

theorem draw_card_iter (shuffle : List DominionCard → List DominionCard)
    (hl : ∀ l, (shuffle l).length = l.length) (n : Nat) (p : DominionPlayer) :
    total_cards ((Yuchen.draw_card shuffle)^[n] p) = total_cards p ∧
    ((Yuchen.draw_card shuffle)^[n] p).actions = p.actions ∧
    ((Yuchen.draw_card shuffle)^[n] p).buys = p.buys ∧
    ((Yuchen.draw_card shuffle)^[n] p).coins = p.coins ∧
    ∀ x ∈ p.hand, x ∈ ((Yuchen.draw_card shuffle)^[n] p).hand := by
  induction n generalizing p with
  | zero => simp
  | succ n ih =>
    rw [Function.iterate_succ_apply]
    obtain ⟨_, h2, h3, h4, h5, h6⟩ := draw_card_zone_sizes shuffle hl p
    obtain ⟨g1, g2, g3, g4, g5⟩ := ih (Yuchen.draw_card shuffle p)
    exact ⟨g1.trans h2, g2.trans h3, g3.trans h4, g4.trans h5,
      fun x hx => g5 x (h6 x hx)⟩

theorem draw_hand_fuel_complete (shuffle : List DominionCard → List DominionCard)
    (hl : ∀ l, (shuffle l).length = l.length) :
    ∀ (fuel : Nat) (p : DominionPlayer), p.hand.length ≤ 5 →
      5 ≤ total_cards p → 5 ≤ p.hand.length + fuel →
      ∃ q, Yuchen.draw_hand_fuel shuffle fuel p = some q ∧
        q.hand.length = 5 ∧ total_cards q = total_cards p ∧
        q.actions = p.actions ∧ q.buys = p.buys ∧ q.coins = p.coins := by
  intro fuel
  induction fuel with
  | zero =>
    intro p h1 _ h3
    have h5 : p.hand.length = 5 := by omega
    refine ⟨p, ?_, h5, rfl, rfl, rfl, rfl⟩
    simp [Yuchen.draw_hand_fuel, h5]
  | succ n ih =>
    intro p h1 h2 h3
    by_cases hlt : p.hand.length < 5
    · have hpos : 0 < p.deck.length + p.discard_pile.length := by
        unfold total_cards at h2; omega
      obtain ⟨hh, ht, ha, hb, hc, _⟩ := draw_card_zone_sizes shuffle hl p
      have hh1 := hh hpos
      obtain ⟨q, hq, q5, qt, qa, qb, qc⟩ := ih (Yuchen.draw_card shuffle p)
        (by omega) (by rw [ht]; exact h2) (by omega)
      refine ⟨q, ?_, q5, by rw [qt, ht], by rw [qa, ha], by rw [qb, hb],
        by rw [qc, hc]⟩
      simpa [Yuchen.draw_hand_fuel, hlt] using hq
    · have h5 : p.hand.length = 5 := by omega
      refine ⟨p, ?_, h5, rfl, rfl, rfl, rfl⟩
      simp [Yuchen.draw_hand_fuel, hlt]

/-! ### Sum, max and dict-building lemmas for the scoring -/

theorem list_sum_map_add {α : Type} (l : List α) (f g : α → Nat) :
    (l.map fun x => f x + g x).sum = (l.map f).sum + (l.map g).sum := by
  induction l with
  | nil => simp
  | cons x xs ih => simp [ih]; omega

theorem list_sum_map_ite {α : Type} (l : List α) (P : α → Prop)
    [DecidablePred P] (f : α → Nat) :
    (l.map fun x => if P x then f x else 0).sum
      = ((l.filter fun x => decide (P x)).map f).sum := by
  induction l with
  | nil => simp
  | cons x xs ih =>
    by_cases h : P x <;> simp [List.filter_cons, h, ih]

theorem list_sum_map_ite_const {α : Type} (l : List α) (P : α → Prop)
    [DecidablePred P] (a : Nat) :
    (l.map fun x => if P x then a else 0).sum
      = (l.filter fun x => decide (P x)).length * a := by
  induction l with
  | nil => simp
  | cons x xs ih =>
    by_cases h : P x
    · simp [List.filter_cons, h, ih]
      ring
    · simp [List.filter_cons, h, ih]

theorem le_foldl_max (l : List Nat) (a : Nat) : a ≤ l.foldl Nat.max a := by
  induction l generalizing a with
  | nil => exact Nat.le_refl a
  | cons x xs ih => exact le_trans (Nat.le_max_left a x) (ih (Nat.max a x))

theorem mem_le_foldl_max (l : List Nat) :
    ∀ (a : Nat), ∀ x ∈ l, x ≤ l.foldl Nat.max a := by
  induction l with
  | nil => intro a x h; cases h
  | cons y ys ih =>
    intro a x h
    rcases List.mem_cons.mp h with h1 | h1
    · subst h1
      exact le_trans (Nat.le_max_right a x) (le_foldl_max ys (Nat.max a x))
    · exact ih (Nat.max a y) x h1

theorem foldl_max_eq_or_mem (l : List Nat) (a : Nat) :
    l.foldl Nat.max a = a ∨ l.foldl Nat.max a ∈ l := by
  induction l generalizing a with
  | nil => exact Or.inl rfl
  | cons y ys ih =>
    rcases ih (Nat.max a y) with h | h
    · rcases max_choice a y with hm | hm
      · exact Or.inl (by rw [List.foldl_cons, h]; exact hm)
      · refine Or.inr ?_
        rw [List.foldl_cons, h, show Nat.max a y = y from hm]
        exact List.mem_cons_self _ _
    · exact Or.inr (List.mem_cons_of_mem _ h)

theorem foldl_dinsert_fresh (players : List DominionPlayer)
    (f : DominionPlayer → Nat) :
    ∀ d : Supply, (∀ p ∈ players, dlookup d p.name = none) →
      (players.map DominionPlayer.name).Nodup →
      players.foldl (fun acc p => dinsert acc p.name (f p)) d
        = d ++ players.map fun p => (p.name, f p) := by
  induction players with
  | nil => intro d _ _; simp
  | cons p tl ih =>
    intro d hfresh hnd
    rw [List.map_cons, List.nodup_cons] at hnd
    have h0 : dlookup d p.name = none := hfresh p (List.mem_cons_self _ _)
    rw [List.foldl_cons, dinsert_of_dlookup_none h0,
      ih (d ++ [(p.name, f p)]) ?_ hnd.2]
    · simp
    · intro q hq
      rw [dlookup_append]
      have hne : p.name ≠ q.name := by
        intro he
        exact hnd.1 (he ▸ List.mem_map.mpr ⟨q, hq, rfl⟩)
      simp [dlookup, hfresh q (List.mem_cons_of_mem _ hq), hne]

theorem filter_map_pairs (players : List DominionPlayer)
    (f : DominionPlayer → Nat) (m : Nat) :
    ((players.map fun p => (p.name, f p)).filter fun x => x.2 == m)
      = (players.filter fun p => f p == m).map fun p => (p.name, f p) := by
  induction players with
  | nil => rfl
  | cons p tl ih =>
    by_cases h : f p = m <;> simp [List.filter_cons, h, ih]

/-! ### Derived scoring lemmas -/

theorem scores_dict_eq (players : List DominionPlayer)
    (hnd : (players.map DominionPlayer.name).Nodup) :
    Main.scores_dict players
      = players.map fun p => (p.name, Main.player_score p) := by
  have h := foldl_dinsert_fresh players Main.player_score []
    (fun p _ => rfl) hnd
  simpa [Main.scores_dict] using h

theorem max_score_eq (players : List DominionPlayer)
    (hnd : (players.map DominionPlayer.name).Nodup) :
    Main.max_score players
      = (players.map Main.player_score).foldl Nat.max 0 := by
  rw [Main.max_score, scores_dict_eq players hnd, List.map_map]
  rfl

/-! ### Catalog facts and supply-setup lemmas -/

theorem base_names_nodup : (Main.base_action_cards.map DominionCard.name).Nodup := by
  decide

theorem base_names_not_basic :
    ∀ c ∈ Main.base_action_cards, c.name ≠ "Copper" ∧ c.name ≠ "Silver" ∧
      c.name ≠ "Gold" ∧ c.name ≠ "Estate" ∧ c.name ≠ "Duchy" ∧
      c.name ≠ "Province" ∧ c.name ≠ "Curse" := by
  decide

theorem selected_mem_base {shuffled : List DominionCard} {k : Nat}
    (hperm : shuffled.Perm Main.base_action_cards) :
    ∀ c ∈ shuffled.take k, c ∈ Main.base_action_cards :=
  fun _c hc => hperm.mem_iff.mp (List.mem_of_mem_take hc)

theorem selected_names_nodup {shuffled : List DominionCard} {k : Nat}
    (hperm : shuffled.Perm Main.base_action_cards) :
    ((shuffled.take k).map DominionCard.name).Nodup := by
  have h1 : (shuffled.map DominionCard.name).Nodup :=
    ((hperm.map DominionCard.name).nodup_iff).mpr base_names_nodup
  rw [List.map_take]
  exact List.Nodup.sublist (List.take_sublist _ _) h1

/-! ### Claim theorems -/

/-- Claim C1: the conservation invariant deck + hand + discard = acquired
count FAILS in main.py.  play_action_card calls draw_hand, which replaces
the hand with the top five deck cards, so a player holding 6 cards (5 in
deck, the played Smithy in hand) holds only 5 afterwards, and the played
card is in no zone at all: a card instance is lost. -/
theorem c1_main_play_action_loses_cards :
    total_cards ⟨"A", List.replicate 5 copperCard, [smithyCard], [], 1, 1, 0⟩ = 6 ∧
    total_cards (Main.play_action_card id
      ⟨"A", List.replicate 5 copperCard, [smithyCard], [], 1, 1, 0⟩
      smithyCard) = 5 ∧
    smithyCard ∉ (Main.play_action_card id
      ⟨"A", List.replicate 5 copperCard, [smithyCard], [], 1, 1, 0⟩
      smithyCard).discard_pile := by
  decide

/-- Claim C3: drawHand does NOT terminate for every player state in
yuchen.py.  With deck, hand and discard all empty, draw_card is a no-op
and the while-loop guard stays true, so no amount of fuel makes the loop
exit: the code loops forever instead of stopping early with a short
hand. -/
theorem c3_yuchen_draw_hand_diverges :
    ∀ fuel, Yuchen.draw_hand_fuel id fuel ⟨"P", [], [], [], 1, 1, 0⟩ = none := by
  intro fuel
  induction fuel with
  | zero => rfl
  | succ n ih =>
    have hstep : Yuchen.draw_hand_fuel id (n + 1) ⟨"P", [], [], [], 1, 1, 0⟩
        = Yuchen.draw_hand_fuel id n ⟨"P", [], [], [], 1, 1, 0⟩ := rfl
    rw [hstep]
    exact ih

/-- Claim C4: get_card_by_name raises AttributeError for every name that
is a supply key (it reads card fields off the integer count) and returns
None for every other name; in particular no call ever produces an actual
card, so no console input in play_turn resolves to a playable or buyable
card without an exception. -/
theorem c4_get_card_by_name_raises (supply : Supply) (name : String)
    (c : DominionCard) :
    Main.get_card_by_name supply name
      = (if (dlookup supply name).isSome then Except.error ()
         else Except.ok none) ∧
    Main.get_card_by_name supply name ≠ Except.ok (some c) := by
  have h1 : Main.get_card_by_name supply name
      = (if (dlookup supply name).isSome then Except.error ()
         else Except.ok none) := by
    induction supply with
    | nil => simp [Main.get_card_by_name, dlookup]
    | cons hd tl ih =>
      obtain ⟨k, v⟩ := hd
      by_cases hk : k = name
      · simp [Main.get_card_by_name, dlookup, hk]
      · simp [Main.get_card_by_name, dlookup, hk, ih]
  refine ⟨h1, ?_⟩
  rw [h1]
  split
  · simp
  · simp

/-- Claim C2 counterexample: yuchen.py play_action_card never examines the
card category.  A Victory card (Estate) in hand with one action available
is played successfully and the state changes, where the claim requires an
InvalidPlay failure with no state change. -/
theorem c2_category_not_checked :
    estateCard.card_type = "Victory" ∧
    (Yuchen.play_action_card id
      ⟨"A", [], [estateCard], [], 1, 1, 0⟩ estateCard).1 = true ∧
    (Yuchen.play_action_card id
      ⟨"A", [], [estateCard], [], 1, 1, 0⟩ estateCard).2
      ≠ ⟨"A", [], [estateCard], [], 1, 1, 0⟩ := by
  decide

/-- Claim C5 counterexample: main.py buy_card never checks buys > 0.  With
buys = 0, enough coins and stocked supply, the buy succeeds and drives the
buys counter to -1, where the claim requires failure with no state
change. -/
theorem c5_buy_ignores_buys :
    (Main.buy_card ⟨"A", [], [], [], 1, 0, 10⟩ silverCard
      [("Silver", 40)]).1 = true ∧
    (Main.buy_card ⟨"A", [], [], [], 1, 0, 10⟩ silverCard
      [("Silver", 40)]).2.1.buys = -1 := by
  decide

/-- Claim C8 counterexample: yuchen.py setup_supply ignores the player
count entirely: Copper is 60 (not 60 - 7N, which is 46 for two players),
Estate is 24, there is no Curse pile, and no player count can be rejected
because none is consulted. -/
theorem c8_yuchen_supply_differs :
    dlookup (Yuchen.setup_supply []) "Copper" = some 60 ∧
    dlookup (Yuchen.setup_supply []) "Estate" = some 24 ∧
    dlookup (Yuchen.setup_supply []) "Curse" = none ∧
    (60 : Nat) ≠ 60 - 2 * 7 := by
  decide

/-- Claim C9 counterexample: the catalog sampled by kingdom selection
contains Gardens, whose category is Victory, and the identity permutation
is a possible shuffle that places Gardens among the first ten selected
kinds — so the selection is not restricted to Action-category kinds. -/
theorem c9_gardens_selected :
    gardensCard ∈ Main.base_action_cards.take 10 ∧
    gardensCard.card_type = "Victory" ∧
    gardensCard.card_type ≠ "Action" ∧
    gardensCard.card_type ≠ "Action-Attack" ∧
    gardensCard.card_type ≠ "Action-Reaction" ∧
    Main.base_action_cards.Perm Main.base_action_cards :=
  ⟨by decide, rfl, by decide, by decide, by decide, List.Perm.refl _⟩

/-- Claim C10 counterexample: yuchen.py end_turn draws the next hand
itself: after ending a turn with five cards in deck, the hand holds five
cards again (not the empty hand the claim requires) and the deck has been
consumed rather than left untouched. -/
theorem c10_yuchen_end_turn_draws :
    Yuchen.end_turn id 10
      ⟨"A", List.replicate 5 copperCard, [estateCard], [], 1, 1, 3⟩
      = some ⟨"A", [], List.replicate 5 copperCard, [estateCard], 1, 1, 0⟩ ∧
    (List.replicate 5 copperCard : List DominionCard) ≠ [] := by
  decide

/-- Claim C2 (amended): yuchen.py play_action_card checks only actions > 0
and membership of the card in the hand — the Action category is NOT a
precondition (main.py leaves the category check to its caller).  When the
two checks fail it returns False with no state change; when they hold it
decrements actions, adds the bonus coins and buys, draws card.draw cards,
and moves the card from hand to the end of the discard pile, conserving
the total card count. -/
theorem c2_play_action_amended (shuffle : List DominionCard → List DominionCard)
    (hl : ∀ l, (shuffle l).length = l.length)
    (p : DominionPlayer) (card : DominionCard) :
    (p.actions ≤ 0 ∨ card ∉ p.hand →
      Yuchen.play_action_card shuffle p card = (false, p)) ∧
    (0 < p.actions → card ∈ p.hand →
      (Yuchen.play_action_card shuffle p card).1 = true ∧
      (Yuchen.play_action_card shuffle p card).2.actions = p.actions - 1 ∧
      (Yuchen.play_action_card shuffle p card).2.coins = p.coins + card.coins ∧
      (Yuchen.play_action_card shuffle p card).2.buys = p.buys + card.buys ∧
      (Yuchen.play_action_card shuffle p card).2.discard_pile.getLast?
        = some card ∧
      total_cards (Yuchen.play_action_card shuffle p card).2 = total_cards p) := by
  constructor
  · rintro (h | h)
    · simp [Yuchen.play_action_card, h]
    · by_cases ha : p.actions ≤ 0
      · simp [Yuchen.play_action_card, ha]
      · simp [Yuchen.play_action_card, ha, h]
  · intro ha hmem
    have ha2 : ¬ p.actions ≤ 0 := not_le.mpr ha
    obtain ⟨it, ia, ib, ic, imem⟩ := draw_card_iter shuffle hl card.draw
      { p with actions := p.actions - 1, coins := p.coins + card.coins,
               buys := p.buys + card.buys }
    set p2 := (Yuchen.draw_card shuffle)^[card.draw]
      { p with actions := p.actions - 1, coins := p.coins + card.coins,
               buys := p.buys + card.buys } with hp2
    have hres : Yuchen.play_action_card shuffle p card
        = (true, { p2 with hand := p2.hand.erase card,
                           discard_pile := p2.discard_pile ++ [card] }) := by
      rw [hp2]
      simp [Yuchen.play_action_card, ha2, hmem]
    have hmem2 : card ∈ p2.hand := imem card hmem
    have hlen : (p2.hand.erase card).length = p2.hand.length - 1 :=
      List.length_erase_of_mem hmem2
    have hpos : 0 < p2.hand.length := List.length_pos_of_mem hmem2
    rw [hres]
    refine ⟨rfl, ia, ic, ib, List.getLast?_concat _, ?_⟩
    have htot : total_cards p2 = total_cards p := it
    simp only [total_cards, List.length_append, List.length_cons,
      List.length_nil] at htot ⊢
    rw [hlen]
    omega

/-- Witness for the amended C2 at a concrete success state: one action,
Smithy in hand, one Copper in deck. -/
theorem c2_play_action_amended_witness :
    (Yuchen.play_action_card id
      ⟨"A", [copperCard], [smithyCard], [], 1, 1, 0⟩ smithyCard).1 = true ∧
    (Yuchen.play_action_card id
      ⟨"A", [copperCard], [smithyCard], [], 1, 1, 0⟩ smithyCard).2.actions
      = 1 - 1 ∧
    (Yuchen.play_action_card id
      ⟨"A", [copperCard], [smithyCard], [], 1, 1, 0⟩ smithyCard).2.coins
      = 0 + smithyCard.coins ∧
    (Yuchen.play_action_card id
      ⟨"A", [copperCard], [smithyCard], [], 1, 1, 0⟩ smithyCard).2.buys
      = 1 + smithyCard.buys ∧
    (Yuchen.play_action_card id
      ⟨"A", [copperCard], [smithyCard], [], 1, 1, 0⟩
      smithyCard).2.discard_pile.getLast? = some smithyCard ∧
    total_cards (Yuchen.play_action_card id
      ⟨"A", [copperCard], [smithyCard], [], 1, 1, 0⟩ smithyCard).2
      = total_cards ⟨"A", [copperCard], [smithyCard], [], 1, 1, 0⟩ :=
  (c2_play_action_amended id (fun _ => rfl)
    ⟨"A", [copperCard], [smithyCard], [], 1, 1, 0⟩ smithyCard).2
    (by decide) (by decide)

/-- Claim C5 (amended): main.py buy_card succeeds exactly when coins cover
the cost and the supply holds a positive count for the name — the buys
counter is NOT consulted (the caller loop guards it) and is decremented
even from 0; on success it atomically updates coins, buys, the supply
entry and appends the card to the discard pile, and every failure leaves
player and supply unchanged.  yuchen.py buy_card additionally requires
buys > 0, and raises KeyError when the name is not a supply key. -/
theorem c5_buy_card_amended (p : DominionPlayer) (card : DominionCard)
    (supply : Supply) (cnt : Nat) :
    ((Main.buy_card p card supply).1 = true ↔
      (card.cost : Int) ≤ p.coins ∧
        ∃ c0, dlookup supply card.name = some c0 ∧ 0 < c0) ∧
    ((Main.buy_card p card supply).1 = false →
      Main.buy_card p card supply = (false, p, supply)) ∧
    (dlookup supply card.name = some cnt → 0 < cnt →
      (card.cost : Int) ≤ p.coins →
      Main.buy_card p card supply
        = (true,
           { p with coins := p.coins - card.cost, buys := p.buys - 1,
                    discard_pile := p.discard_pile ++ [card] },
           dinsert supply card.name (cnt - 1))) ∧
    (p.buys ≤ 0 → Yuchen.buy_card p card supply = Except.ok (false, p, supply)) ∧
    (0 < p.buys → p.coins < (card.cost : Int) →
      Yuchen.buy_card p card supply = Except.ok (false, p, supply)) ∧
    (0 < p.buys → (card.cost : Int) ≤ p.coins →
      dlookup supply card.name = none →
      Yuchen.buy_card p card supply = Except.error ()) ∧
    (0 < p.buys → (card.cost : Int) ≤ p.coins →
      dlookup supply card.name = some cnt → cnt = 0 →
      Yuchen.buy_card p card supply = Except.ok (false, p, supply)) ∧
    (0 < p.buys → (card.cost : Int) ≤ p.coins →
      dlookup supply card.name = some cnt → 0 < cnt →
      Yuchen.buy_card p card supply
        = Except.ok (true,
            { p with coins := p.coins - card.cost, buys := p.buys - 1,
                     discard_pile := p.discard_pile ++ [card] },
            dinsert supply card.name (cnt - 1))) := by
  refine ⟨?_, ?_, ?_, ?_, ?_, ?_, ?_, ?_⟩
  · unfold Main.buy_card
    cases hdl : dlookup supply card.name with
    | none => simp [hdl]
    | some c0 =>
      dsimp only
      by_cases hcond : (card.cost : Int) ≤ p.coins ∧ 0 < c0
      · rw [if_pos hcond]
        constructor
        · intro _
          exact ⟨hcond.1, c0, rfl, hcond.2⟩
        · intro _
          rfl
      · rw [if_neg hcond]
        constructor
        · intro h
          simp at h
        · rintro ⟨h1, c1, hc1, h2⟩
          cases hc1
          exact absurd ⟨h1, h2⟩ hcond
  · unfold Main.buy_card
    cases hdl : dlookup supply card.name with
    | none => intro _; rfl
    | some c0 =>
      by_cases hcond : (card.cost : Int) ≤ p.coins ∧ 0 < c0
      · simp [hcond]
      · simp [hcond]
  · intro h1 h2 h3
    unfold Main.buy_card
    rw [h1]
    simp [h2, h3]
  · intro h
    simp [Yuchen.buy_card, h]
  · intro h1 h2
    have h3 : ¬ p.buys ≤ 0 := not_le.mpr h1
    have h4 : ¬ (card.cost : Int) ≤ p.coins := not_le.mpr h2
    simp [Yuchen.buy_card, h3, h2]
  · intro h1 h2 h3
    have h4 : ¬ p.buys ≤ 0 := not_le.mpr h1
    have h5 : ¬ p.coins < (card.cost : Int) := not_lt.mpr h2
    simp [Yuchen.buy_card, h4, h5, h3]
  · intro h1 h2 h3 h4
    have h5 : ¬ p.buys ≤ 0 := not_le.mpr h1
    have h6 : ¬ p.coins < (card.cost : Int) := not_lt.mpr h2
    simp [Yuchen.buy_card, h5, h6, h3, h4]
  · intro h1 h2 h3 h4
    have h5 : ¬ p.buys ≤ 0 := not_le.mpr h1
    have h6 : ¬ p.coins < (card.cost : Int) := not_lt.mpr h2
    have h7 : ¬ cnt ≤ 0 := not_le.mpr h4
    simp [Yuchen.buy_card, h5, h6, h3, h7]

/-- Witness for the amended C5: both buy implementations succeed on a
player with one buy and ten coins purchasing a stocked Silver. -/
theorem c5_buy_card_amended_witness :
    Main.buy_card ⟨"A", [], [], [], 1, 1, 10⟩ silverCard [("Silver", 40)]
      = (true, ⟨"A", [], [], [silverCard], 1, 0, 7⟩, [("Silver", 39)]) ∧
    Yuchen.buy_card ⟨"A", [], [], [], 1, 1, 10⟩ silverCard [("Silver", 40)]
      = Except.ok (true, ⟨"A", [], [], [silverCard], 1, 0, 7⟩,
          [("Silver", 39)]) :=
  ⟨(c5_buy_card_amended ⟨"A", [], [], [], 1, 1, 10⟩ silverCard
      [("Silver", 40)] 40).2.2.1 rfl (by decide) (by decide),
   (c5_buy_card_amended ⟨"A", [], [], [], 1, 1, 10⟩ silverCard
      [("Silver", 40)] 40).2.2.2.2.2.2.2 (by decide) (by decide) rfl
      (by decide)⟩

/-- Claim C6: after a completed turn, check_game_over declares the game
over exactly when the Province pile is at count 0 or at least three supply
piles are at count 0 (two empty piles let the game continue, three end
it, and the controller loop plays no further turn once the flag is
set). -/
theorem c6_check_game_over_iff (go : Bool) (supply : Supply)
    (hkeys : (supply.map Prod.fst).Nodup) :
    (Main.check_game_over go supply = true ↔
      go = true ∨ dlookup supply "Province" = some 0 ∨
        3 ≤ (supply.filter fun x => x.2 == 0).length) := by
  by_cases hp : ("Province", 0) ∈ supply
  · have h1 : (Main.count_empty_loop go 0 supply).1 = true :=
      count_empty_loop_province go 0 hp
    have h2 : dlookup supply "Province" = some 0 := dlookup_of_mem hkeys hp
    constructor
    · intro _
      exact Or.inr (Or.inl h2)
    · intro _
      unfold Main.check_game_over
      dsimp only
      split
      · rfl
      · exact h1
  · have h1 := count_empty_loop_no_province (l := supply) go 0 hp
    have h2 : ¬ dlookup supply "Province" = some 0 := fun h =>
      hp (mem_of_dlookup h)
    unfold Main.check_game_over
    rw [h1]
    by_cases h3 : 3 ≤ (supply.filter fun x => x.2 == 0).length
    · simp [h3, h2]
    · simp [h3, h2]

/-- Witness for C6 at a concrete supply with Province stocked and exactly
three empty piles. -/
theorem c6_check_game_over_iff_witness :
    Main.check_game_over false
        [("Province", 1), ("A", 0), ("B", 0), ("C", 0)] = true ↔
      false = true ∨
        dlookup [("Province", 1), ("A", 0), ("B", 0), ("C", 0)] "Province"
          = some 0 ∨
        3 ≤ ([("Province", 1), ("A", 0), ("B", 0), ("C", 0)].filter
              fun x => x.2 == 0).length :=
  c6_check_game_over_iff false
    [("Province", 1), ("A", 0), ("B", 0), ("C", 0)] (by decide)

/-- Claim C7: at game end each player scores the sum of vp over owned
Victory and Curse cards plus, owning k Gardens and t total cards,
k * (t / 10) bonus points; the maximum recorded score is attained by some
player and bounds every player, and the winners comprehension reports
exactly the names of all players with that maximum (all of them on a
tie).  Player names are assumed distinct, as the spec requires, since the
Python scores dict collapses duplicates. -/
theorem c7_scoring_and_winners (players : List DominionPlayer)
    (p : DominionPlayer) (hne : players ≠ [])
    (hnames : (players.map DominionPlayer.name).Nodup) :
    Main.player_score p
      = (((Main.owned p).filter fun c =>
            c.card_type == "Victory" || c.card_type == "Curse").map
          DominionCard.vp).sum
        + ((Main.owned p).filter fun c => c.name == "Gardens").length
          * ((Main.owned p).length / 10) ∧
    (∃ q ∈ players, Main.player_score q = Main.max_score players) ∧
    (∀ q ∈ players, Main.player_score q ≤ Main.max_score players) ∧
    Main.winners players
      = (players.filter fun q =>
          Main.player_score q == Main.max_score players).map
        DominionPlayer.name := by
  refine ⟨?_, ?_, ?_, ?_⟩
  · unfold Main.player_score Main.card_points
    rw [list_sum_map_add, list_sum_map_ite, list_sum_map_ite_const]
    have hf1 : (Main.owned p).filter
        (fun x => decide (x.card_type = "Victory" ∨ x.card_type = "Curse"))
        = (Main.owned p).filter
          (fun c => c.card_type == "Victory" || c.card_type == "Curse") := by
      apply List.filter_congr
      intro a _
      by_cases h1 : a.card_type = "Victory"
      · simp [h1]
      · by_cases h2 : a.card_type = "Curse" <;> simp [h1, h2]
    have hf2 : (Main.owned p).filter (fun x => decide (x.name = "Gardens"))
        = (Main.owned p).filter (fun c => c.name == "Gardens") := by
      apply List.filter_congr
      intro a _
      by_cases h1 : a.name = "Gardens" <;> simp [h1]
    rw [hf1, hf2]
  · rw [max_score_eq players hnames]
    rcases foldl_max_eq_or_mem (players.map Main.player_score) 0 with h | h
    · obtain ⟨q, hq⟩ := List.exists_mem_of_ne_nil players hne
      refine ⟨q, hq, ?_⟩
      have hle := mem_le_foldl_max (players.map Main.player_score) 0 _
        (List.mem_map_of_mem Main.player_score hq)
      omega
    · obtain ⟨q, hq, hqs⟩ := List.mem_map.mp h
      exact ⟨q, hq, hqs⟩
  · intro q hq
    rw [max_score_eq players hnames]
    exact mem_le_foldl_max _ 0 _ (List.mem_map_of_mem Main.player_score hq)
  · unfold Main.winners
    rw [scores_dict_eq players hnames, filter_map_pairs, List.map_map]
    rfl

/-- Witness for C7: two players, Alice owning one Estate and Bob owning
nothing. -/
theorem c7_scoring_and_winners_witness :
    Main.player_score ⟨"Alice", [estateCard], [], [], 1, 1, 0⟩
      = (((Main.owned ⟨"Alice", [estateCard], [], [], 1, 1, 0⟩).filter
            fun c => c.card_type == "Victory" || c.card_type == "Curse").map
          DominionCard.vp).sum
        + ((Main.owned ⟨"Alice", [estateCard], [], [], 1, 1, 0⟩).filter
            fun c => c.name == "Gardens").length
          * ((Main.owned ⟨"Alice", [estateCard], [], [], 1, 1, 0⟩).length / 10) ∧
    (∃ q ∈ [(⟨"Alice", [estateCard], [], [], 1, 1, 0⟩ : DominionPlayer),
            ⟨"Bob", [], [], [], 1, 1, 0⟩],
      Main.player_score q
        = Main.max_score [⟨"Alice", [estateCard], [], [], 1, 1, 0⟩,
            ⟨"Bob", [], [], [], 1, 1, 0⟩]) ∧
    (∀ q ∈ [(⟨"Alice", [estateCard], [], [], 1, 1, 0⟩ : DominionPlayer),
            ⟨"Bob", [], [], [], 1, 1, 0⟩],
      Main.player_score q
        ≤ Main.max_score [⟨"Alice", [estateCard], [], [], 1, 1, 0⟩,
            ⟨"Bob", [], [], [], 1, 1, 0⟩]) ∧
    Main.winners [⟨"Alice", [estateCard], [], [], 1, 1, 0⟩,
        ⟨"Bob", [], [], [], 1, 1, 0⟩]
      = ([(⟨"Alice", [estateCard], [], [], 1, 1, 0⟩ : DominionPlayer),
          ⟨"Bob", [], [], [], 1, 1, 0⟩].filter fun q =>
            Main.player_score q
              == Main.max_score [⟨"Alice", [estateCard], [], [], 1, 1, 0⟩,
                  ⟨"Bob", [], [], [], 1, 1, 0⟩]).map DominionPlayer.name :=
  c7_scoring_and_winners
    [⟨"Alice", [estateCard], [], [], 1, 1, 0⟩, ⟨"Bob", [], [], [], 1, 1, 0⟩]
    ⟨"Alice", [estateCard], [], [], 1, 1, 0⟩ (by decide) (by decide)

/-- Reducing exlookup on a successful supply initialisation. -/
theorem exlookup_ok (s : Supply) (n : String) :
    exlookup (Except.ok s) n = dlookup s n := rfl

/-- The kingdom cards selected from any shuffle of the catalog never
carry a basic-pile name, so they cannot overwrite the base supply. -/
theorem selected_fresh {shuffled : List DominionCard} {k : Nat}
    (hperm : shuffled.Perm Main.base_action_cards) :
    (∀ c ∈ shuffled.take k, c.name ≠ "Copper") ∧
    (∀ c ∈ shuffled.take k, c.name ≠ "Silver") ∧
    (∀ c ∈ shuffled.take k, c.name ≠ "Gold") ∧
    (∀ c ∈ shuffled.take k, c.name ≠ "Estate") ∧
    (∀ c ∈ shuffled.take k, c.name ≠ "Duchy") ∧
    (∀ c ∈ shuffled.take k, c.name ≠ "Province") ∧
    (∀ c ∈ shuffled.take k, c.name ≠ "Curse") :=
  ⟨fun c hc => (base_names_not_basic c (selected_mem_base hperm c hc)).1,
   fun c hc => (base_names_not_basic c (selected_mem_base hperm c hc)).2.1,
   fun c hc => (base_names_not_basic c (selected_mem_base hperm c hc)).2.2.1,
   fun c hc => (base_names_not_basic c (selected_mem_base hperm c hc)).2.2.2.1,
   fun c hc => (base_names_not_basic c (selected_mem_base hperm c hc)).2.2.2.2.1,
   fun c hc => (base_names_not_basic c (selected_mem_base hperm c hc)).2.2.2.2.2.1,
   fun c hc => (base_names_not_basic c (selected_mem_base hperm c hc)).2.2.2.2.2.2⟩

/-- Claim C8 (amended): main.py initialize_supply yields exactly the
claimed table — Copper 60 - 7N, Silver 40, Gold 30, Estate/Duchy/Province
8 each for two players and 12 each for three or four, Curse 10/20/30 —
and raises ValueError for any other player count before any turn is
played.  yuchen.py setup_supply, by contrast, ignores the player count:
Copper 60, Silver 40, Gold 30, Estate 24, Duchy 12, Province 12, with no
Curse pile and no validation. -/
theorem c8_supply_setup_amended (shuffled : List DominionCard)
    (k N : Nat) (kingdom : List DominionCard)
    (hperm : shuffled.Perm Main.base_action_cards) :
    (¬(N = 2 ∨ N = 3 ∨ N = 4) →
      Main.initialize_supply N shuffled k = Except.error ()) ∧
    (exlookup (Main.initialize_supply 2 shuffled k) "Copper" = some 46 ∧
     exlookup (Main.initialize_supply 2 shuffled k) "Silver" = some 40 ∧
     exlookup (Main.initialize_supply 2 shuffled k) "Gold" = some 30 ∧
     exlookup (Main.initialize_supply 2 shuffled k) "Estate" = some 8 ∧
     exlookup (Main.initialize_supply 2 shuffled k) "Duchy" = some 8 ∧
     exlookup (Main.initialize_supply 2 shuffled k) "Province" = some 8 ∧
     exlookup (Main.initialize_supply 2 shuffled k) "Curse" = some 10) ∧
    (exlookup (Main.initialize_supply 3 shuffled k) "Copper" = some 39 ∧
     exlookup (Main.initialize_supply 3 shuffled k) "Silver" = some 40 ∧
     exlookup (Main.initialize_supply 3 shuffled k) "Gold" = some 30 ∧
     exlookup (Main.initialize_supply 3 shuffled k) "Estate" = some 12 ∧
     exlookup (Main.initialize_supply 3 shuffled k) "Duchy" = some 12 ∧
     exlookup (Main.initialize_supply 3 shuffled k) "Province" = some 12 ∧
     exlookup (Main.initialize_supply 3 shuffled k) "Curse" = some 20) ∧
    (exlookup (Main.initialize_supply 4 shuffled k) "Copper" = some 32 ∧
     exlookup (Main.initialize_supply 4 shuffled k) "Silver" = some 40 ∧
     exlookup (Main.initialize_supply 4 shuffled k) "Gold" = some 30 ∧
     exlookup (Main.initialize_supply 4 shuffled k) "Estate" = some 12 ∧
     exlookup (Main.initialize_supply 4 shuffled k) "Duchy" = some 12 ∧
     exlookup (Main.initialize_supply 4 shuffled k) "Province" = some 12 ∧
     exlookup (Main.initialize_supply 4 shuffled k) "Curse" = some 30) ∧
    (dlookup (Yuchen.setup_supply kingdom) "Copper" = some 60 ∧
     dlookup (Yuchen.setup_supply kingdom) "Silver" = some 40 ∧
     dlookup (Yuchen.setup_supply kingdom) "Gold" = some 30 ∧
     dlookup (Yuchen.setup_supply kingdom) "Estate" = some 24 ∧
     dlookup (Yuchen.setup_supply kingdom) "Duchy" = some 12 ∧
     dlookup (Yuchen.setup_supply kingdom) "Province" = some 12) := by
  obtain ⟨hcop, hsil, hgol, hest, hduc, hpro, hcur⟩ :=
    selected_fresh (k := k) hperm
  have e2 : Main.initialize_supply 2 shuffled k
      = Except.ok (Main.add_kingdom
          [("Copper", 60 - 2 * 7), ("Silver", 40), ("Gold", 30),
           ("Estate", 8), ("Duchy", 8), ("Province", 8), ("Curse", 10)]
          (shuffled.take k)) := rfl
  have e3 : Main.initialize_supply 3 shuffled k
      = Except.ok (Main.add_kingdom
          [("Copper", 60 - 3 * 7), ("Silver", 40), ("Gold", 30),
           ("Estate", 12), ("Duchy", 12), ("Province", 12), ("Curse", 20)]
          (shuffled.take k)) := rfl
  have e4 : Main.initialize_supply 4 shuffled k
      = Except.ok (Main.add_kingdom
          [("Copper", 60 - 4 * 7), ("Silver", 40), ("Gold", 30),
           ("Estate", 12), ("Duchy", 12), ("Province", 12), ("Curse", 30)]
          (shuffled.take k)) := rfl
  have ey : Yuchen.setup_supply kingdom
      = dinsert (dinsert (dinsert (dinsert (dinsert (dinsert
          (kingdom.foldl (fun acc c => dinsert acc c.name 10) [])
          "Copper" 60) "Silver" 40) "Gold" 30) "Estate" 24) "Duchy" 12)
          "Province" 12 := rfl
  refine ⟨?_, ⟨?_, ?_, ?_, ?_, ?_, ?_, ?_⟩, ⟨?_, ?_, ?_, ?_, ?_, ?_, ?_⟩,
    ⟨?_, ?_, ?_, ?_, ?_, ?_, ?_⟩, ⟨?_, ?_, ?_, ?_, ?_, ?_⟩⟩
  · intro hN
    have h2 : ¬ N = 2 := fun h => hN (Or.inl h)
    have h3 : ¬ N = 3 := fun h => hN (Or.inr (Or.inl h))
    have h4 : ¬ N = 4 := fun h => hN (Or.inr (Or.inr h))
    simp [Main.initialize_supply, h2, h3, h4]
  · rw [e2, exlookup_ok, add_kingdom_lookup_ne _ _ hcop]; decide
  · rw [e2, exlookup_ok, add_kingdom_lookup_ne _ _ hsil]; decide
  · rw [e2, exlookup_ok, add_kingdom_lookup_ne _ _ hgol]; decide
  · rw [e2, exlookup_ok, add_kingdom_lookup_ne _ _ hest]; decide
  · rw [e2, exlookup_ok, add_kingdom_lookup_ne _ _ hduc]; decide
  · rw [e2, exlookup_ok, add_kingdom_lookup_ne _ _ hpro]; decide
  · rw [e2, exlookup_ok, add_kingdom_lookup_ne _ _ hcur]; decide
  · rw [e3, exlookup_ok, add_kingdom_lookup_ne _ _ hcop]; decide
  · rw [e3, exlookup_ok, add_kingdom_lookup_ne _ _ hsil]; decide
  · rw [e3, exlookup_ok, add_kingdom_lookup_ne _ _ hgol]; decide
  · rw [e3, exlookup_ok, add_kingdom_lookup_ne _ _ hest]; decide
  · rw [e3, exlookup_ok, add_kingdom_lookup_ne _ _ hduc]; decide
  · rw [e3, exlookup_ok, add_kingdom_lookup_ne _ _ hpro]; decide
  · rw [e3, exlookup_ok, add_kingdom_lookup_ne _ _ hcur]; decide
  · rw [e4, exlookup_ok, add_kingdom_lookup_ne _ _ hcop]; decide
  · rw [e4, exlookup_ok, add_kingdom_lookup_ne _ _ hsil]; decide
  · rw [e4, exlookup_ok, add_kingdom_lookup_ne _ _ hgol]; decide
  · rw [e4, exlookup_ok, add_kingdom_lookup_ne _ _ hest]; decide
  · rw [e4, exlookup_ok, add_kingdom_lookup_ne _ _ hduc]; decide
  · rw [e4, exlookup_ok, add_kingdom_lookup_ne _ _ hpro]; decide
  · rw [e4, exlookup_ok, add_kingdom_lookup_ne _ _ hcur]; decide
  · rw [ey,
      dlookup_dinsert_ne _ _ (show ("Province" : String) ≠ "Copper" by decide),
      dlookup_dinsert_ne _ _ (show ("Duchy" : String) ≠ "Copper" by decide),
      dlookup_dinsert_ne _ _ (show ("Estate" : String) ≠ "Copper" by decide),
      dlookup_dinsert_ne _ _ (show ("Gold" : String) ≠ "Copper" by decide),
      dlookup_dinsert_ne _ _ (show ("Silver" : String) ≠ "Copper" by decide),
      dlookup_dinsert_self]
  · rw [ey,
      dlookup_dinsert_ne _ _ (show ("Province" : String) ≠ "Silver" by decide),
      dlookup_dinsert_ne _ _ (show ("Duchy" : String) ≠ "Silver" by decide),
      dlookup_dinsert_ne _ _ (show ("Estate" : String) ≠ "Silver" by decide),
      dlookup_dinsert_ne _ _ (show ("Gold" : String) ≠ "Silver" by decide),
      dlookup_dinsert_self]
  · rw [ey,
      dlookup_dinsert_ne _ _ (show ("Province" : String) ≠ "Gold" by decide),
      dlookup_dinsert_ne _ _ (show ("Duchy" : String) ≠ "Gold" by decide),
      dlookup_dinsert_ne _ _ (show ("Estate" : String) ≠ "Gold" by decide),
      dlookup_dinsert_self]
  · rw [ey,
      dlookup_dinsert_ne _ _ (show ("Province" : String) ≠ "Estate" by decide),
      dlookup_dinsert_ne _ _ (show ("Duchy" : String) ≠ "Estate" by decide),
      dlookup_dinsert_self]
  · rw [ey,
      dlookup_dinsert_ne _ _ (show ("Province" : String) ≠ "Duchy" by decide),
      dlookup_dinsert_self]
  · rw [ey, dlookup_dinsert_self]

/-- Witness for the amended C8: five players are rejected, two players
get 46 Coppers in main.py, and yuchen.py always stocks 12 Provinces. -/
theorem c8_supply_setup_amended_witness :
    Main.initialize_supply 5 Main.base_action_cards 10 = Except.error () ∧
    exlookup (Main.initialize_supply 2 Main.base_action_cards 10) "Copper"
      = some 46 ∧
    dlookup (Yuchen.setup_supply []) "Province" = some 12 :=
  ⟨(c8_supply_setup_amended Main.base_action_cards 10 5 []
      (List.Perm.refl _)).1 (by decide),
   (c8_supply_setup_amended Main.base_action_cards 10 5 []
      (List.Perm.refl _)).2.1.1,
   (c8_supply_setup_amended Main.base_action_cards 10 5 []
      (List.Perm.refl _)).2.2.2.2.2.2.2.2.2⟩

/-- Claim C9 (amended): the kingdom selection takes exactly
num_kingdom_cards distinct kinds, without replacement, from the shuffled
26-entry base list — which contains Action, Action-Attack and
Action-Reaction kinds and the Victory kind Gardens, so a selected kind
need not be Action-category — and every selected kind is seeded with
exactly 10 copies in the supply. -/
theorem c9_kingdom_selection_amended (shuffled : List DominionCard) (k : Nat)
    (hperm : shuffled.Perm Main.base_action_cards) (hk : k ≤ 26) :
    (shuffled.take k).length = k ∧
    ((shuffled.take k).map DominionCard.name).Nodup ∧
    ∀ c ∈ shuffled.take k,
      exlookup (Main.initialize_supply 2 shuffled k) c.name = some 10 := by
  have hlen : shuffled.length = 26 := by
    rw [hperm.length_eq]
    rfl
  refine ⟨?_, selected_names_nodup hperm, ?_⟩
  · rw [List.length_take, hlen]
    exact min_eq_left hk
  · intro c hc
    have e2 : Main.initialize_supply 2 shuffled k
        = Except.ok (Main.add_kingdom
            [("Copper", 60 - 2 * 7), ("Silver", 40), ("Gold", 30),
             ("Estate", 8), ("Duchy", 8), ("Province", 8), ("Curse", 10)]
            (shuffled.take k)) := rfl
    rw [e2, exlookup_ok]
    exact add_kingdom_lookup_mem _ _ (selected_names_nodup hperm) hc

/-- Witness for the amended C9: the identity shuffle selecting the first
ten catalog kinds. -/
theorem c9_kingdom_selection_amended_witness :
    (Main.base_action_cards.take 10).length = 10 ∧
    ((Main.base_action_cards.take 10).map DominionCard.name).Nodup ∧
    ∀ c ∈ Main.base_action_cards.take 10,
      exlookup (Main.initialize_supply 2 Main.base_action_cards 10) c.name
        = some 10 :=
  c9_kingdom_selection_amended Main.base_action_cards 10 (List.Perm.refl _)
    (by decide)

/-- Claim C10 (amended): main.py end_turn moves the hand onto the discard
pile, empties the hand, resets actions = buys = 1 and coins = 0, leaves
the deck untouched and draws nothing (the controller draws separately);
yuchen.py end_turn performs the same reset but then immediately draws the
next five-card hand itself. -/
theorem c10_end_turn_amended (p : DominionPlayer)
    (shuffle : List DominionCard → List DominionCard)
    (hl : ∀ l, (shuffle l).length = l.length) (fuel : Nat)
    (h5 : 5 ≤ total_cards p) (hf : 5 ≤ fuel) :
    ((Main.end_turn p).hand = [] ∧ (Main.end_turn p).deck = p.deck ∧
     (Main.end_turn p).discard_pile = p.discard_pile ++ p.hand ∧
     (Main.end_turn p).actions = 1 ∧ (Main.end_turn p).buys = 1 ∧
     (Main.end_turn p).coins = 0 ∧
     total_cards (Main.end_turn p) = total_cards p) ∧
    (∃ q, Yuchen.end_turn shuffle fuel p = some q ∧ q.hand.length = 5 ∧
      q.actions = 1 ∧ q.buys = 1 ∧ q.coins = 0 ∧
      total_cards q = total_cards p) := by
  have ht0 : total_cards
      { p with discard_pile := p.discard_pile ++ p.hand, hand := [],
               actions := 1, buys := 1, coins := 0 }
      = total_cards p := by
    simp [total_cards]
    omega
  constructor
  · exact ⟨rfl, rfl, rfl, rfl, rfl, rfl, ht0⟩
  · obtain ⟨q, hq, q5, qt, qa, qb, qc⟩ := draw_hand_fuel_complete shuffle hl
      fuel
      { p with discard_pile := p.discard_pile ++ p.hand, hand := [],
               actions := 1, buys := 1, coins := 0 }
      (by simp) (by rw [ht0]; exact h5) (by simpa using hf)
    exact ⟨q, hq, q5, qa, qb, qc, qt.trans ht0⟩

/-- Witness for the amended C10 at a concrete six-card player state. -/
theorem c10_end_turn_amended_witness :
    ((Main.end_turn ⟨"A", List.replicate 5 copperCard, [estateCard], [],
        1, 1, 3⟩).hand = [] ∧
     (Main.end_turn ⟨"A", List.replicate 5 copperCard, [estateCard], [],
        1, 1, 3⟩).deck = List.replicate 5 copperCard ∧
     (Main.end_turn ⟨"A", List.replicate 5 copperCard, [estateCard], [],
        1, 1, 3⟩).discard_pile = [] ++ [estateCard] ∧
     (Main.end_turn ⟨"A", List.replicate 5 copperCard, [estateCard], [],
        1, 1, 3⟩).actions = 1 ∧
     (Main.end_turn ⟨"A", List.replicate 5 copperCard, [estateCard], [],
        1, 1, 3⟩).buys = 1 ∧
     (Main.end_turn ⟨"A", List.replicate 5 copperCard, [estateCard], [],
        1, 1, 3⟩).coins = 0 ∧
     total_cards (Main.end_turn ⟨"A", List.replicate 5 copperCard,
        [estateCard], [], 1, 1, 3⟩)
       = total_cards ⟨"A", List.replicate 5 copperCard, [estateCard], [],
          1, 1, 3⟩) ∧
    (∃ q, Yuchen.end_turn id 5
        ⟨"A", List.replicate 5 copperCard, [estateCard], [], 1, 1, 3⟩
        = some q ∧ q.hand.length = 5 ∧ q.actions = 1 ∧ q.buys = 1 ∧
      q.coins = 0 ∧
      total_cards q
        = total_cards ⟨"A", List.replicate 5 copperCard, [estateCard], [],
            1, 1, 3⟩) :=
  c10_end_turn_amended
    ⟨"A", List.replicate 5 copperCard, [estateCard], [], 1, 1, 3⟩
    id (fun _ => rfl) 5 (by decide) (by decide)
